import Mathlib

/-!
Verification development for the Coderr marketplace backend
(`sales_app/api/serializers.py`, `sales_app/api/views.py`,
`sales_app/api/permissions.py`).

The relational state is embedded as explicit lists of rows; each Django
`objects.create` / `save` call becomes a pure state transformation, and
serializer/view code paths that raise DRF exceptions return an explicit
error value together with the database state at the moment the exception
is raised (there is no `ATOMIC_REQUESTS` setting and no `transaction.atomic`
block in the source, so rows inserted before a failure stay committed).
-/

namespace Coderr

/-- Row of `UserProfile` (`user_auth_app`): identity plus role.
Modelled from the spec: `sales_app`'s and `user_auth_app`'s `models.py` are
not under `src/`; the spec's data-model table gives Profile the attributes
id and role ∈ \x7bbusiness, customer\x7d (the contact fields play no role in
the claims and are omitted). -/
structure UserProfile where
  id : Nat
  type : String
  deriving Repr, DecidableEq

/-- Row of `Offer`.  Modelled from the spec: `models.py` is not under
`src/`; the spec gives Offer an id, an owning profile, title and
description (timestamps and image play no role in the claims). -/
structure Offer where
  id : Nat
  user_profile : Nat
  title : String
  description : String
  deriving Repr, DecidableEq

/-- Row of `OfferDetail`.  Modelled from the spec: `models.py` is not under
`src/`; the spec gives OfferDetail an id, parent offer, title, revision
count, delivery days, price, feature list and tier (`offer_type`). -/
structure OfferDetail where
  id : Nat
  offer : Nat
  title : String
  revisions : Int
  delivery_time_in_days : Nat
  price : ℚ
  features : List String
  offer_type : String
  deriving Repr, DecidableEq

/-- Row of `Order`.  Modelled from the spec: `models.py` is not under
`src/`; the spec gives Order an id, customer profile, referenced
OfferDetail and a status.  No price/tier/delivery columns exist on the
row: `OrderSerializer` computes those by dereferencing `offer_detail`. -/
structure Order where
  id : Nat
  customer_user : Nat
  offer_detail : Nat
  status : String
  deriving Repr, DecidableEq

/-- Row of `Review`.  Modelled from the spec: `models.py` is not under
`src/`; the spec gives Review an id, reviewed business profile, reviewing
profile, rating and description. -/
structure Review where
  id : Nat
  business_user : Nat
  reviewer : Nat
  rating : Int
  description : String
  deriving Repr, DecidableEq

/-- The relational store: one list of rows per table, plus the next free
primary key (all tables draw from one counter; only freshness matters). -/
structure DB where
  profiles : List UserProfile
  offers : List Offer
  offer_details : List OfferDetail
  orders : List Order
  reviews : List Review
  next_id : Nat
  deriving Repr, DecidableEq

/-- API-level outcomes raised by the serializers and views
(`rest_framework` exception classes used in the source). -/
inductive ApiErr where
  | validationError
  | notFound
  | permissionDenied
  | unauthenticated
  deriving Repr, DecidableEq

/-- Lookup an offer row by primary key. -/
def findOffer (db : DB) (pk : Nat) : Option Offer :=
  db.offers.find? (fun o => o.id = pk)

/-- Lookup an offer-detail row by primary key
(`OfferDetail.objects.get(id=...)`). -/
def findDetail (db : DB) (pk : Nat) : Option OfferDetail :=
  db.offer_details.find? (fun d => d.id = pk)

/-- Lookup a profile row by primary key. -/
def findProfile (db : DB) (pk : Nat) : Option UserProfile :=
  db.profiles.find? (fun p => p.id = pk)

/-- The detail rows of one offer (`offer.details.all()`). -/
def detailsOf (db : DB) (offerId : Nat) : List OfferDetail :=
  db.offer_details.filter (fun d => d.offer = offerId)

/-- Validated payload of one nested `OfferDetailSerializer` item: every
field of the serializer's `fields` list except the read-only `id`. -/
structure OfferDetailData where
  title : String
  revisions : Int
  delivery_time_in_days : Nat
  price : ℚ
  features : List String
  offer_type : String
  deriving Repr, DecidableEq

/-- Validated payload of `OfferCreateSerializer` for a create: writable
offer fields plus the nested `details` list. -/
structure OfferCreateData where
  title : String
  description : String
  details : List OfferDetailData
  deriving Repr, DecidableEq

/-- The row built by `OfferDetail.objects.create(offer=offer, **detail)`. -/
def mkDetailRow (pk offerId : Nat) (d : OfferDetailData) : OfferDetail :=
  { id := pk
    offer := offerId
    title := d.title
    revisions := d.revisions
    delivery_time_in_days := d.delivery_time_in_days
    price := d.price
    features := d.features
    offer_type := d.offer_type }

/-- The writable payload carried by an existing detail row (its fields
minus `id` and parent offer). -/
def dataOfRow (r : OfferDetail) : OfferDetailData :=
  { title := r.title
    revisions := r.revisions
    delivery_time_in_days := r.delivery_time_in_days
    price := r.price
    features := r.features
    offer_type := r.offer_type }

/-- Result of `setattr`-ing every validated field of `detail_data` onto an
existing row and saving it (`OfferCreateSerializer.update`, lines 182-184):
the primary key and parent offer are untouched. -/
def applyDetailData (r : OfferDetail) (d : OfferDetailData) : OfferDetail :=
  { r with
    title := d.title
    revisions := d.revisions
    delivery_time_in_days := d.delivery_time_in_days
    price := d.price
    features := d.features
    offer_type := d.offer_type }

/-- Insert one detail row.  Modelled from the spec: `models.py` is not
under `src/`; the spec states the tier is "unique within its parent
offer", and the serializer catches `IntegrityError` around exactly this
insert, so a duplicate (offer, offer_type) pair makes the insert fail while
every other insert commits immediately (no enclosing transaction). -/
def insertOfferDetail (db : DB) (offerId : Nat) (d : OfferDetailData) :
    Except Unit DB :=
  if db.offer_details.any
      (fun r => r.offer = offerId ∧ r.offer_type = d.offer_type) then
    .error ()
  else
    .ok { db with
          offer_details := db.offer_details ++ [mkDetailRow db.next_id offerId d]
          next_id := db.next_id + 1 }

/-- The detail-creation loop of `OfferCreateSerializer.create`
(lines 159-163): each `OfferDetail.objects.create` commits on its own; an
`IntegrityError` is converted to a `ValidationError` and the loop stops,
leaving the rows inserted so far in place. -/
def createDetailsLoop (db : DB) (offerId : Nat) :
    List OfferDetailData → DB × Except ApiErr Nat
  | [] => (db, .ok offerId)
  | d :: rest =>
    match insertOfferDetail db offerId d with
    | .error _ => (db, .error .validationError)
    | .ok db1 => createDetailsLoop db1 offerId rest

/-- The offer row built by
`Offer.objects.create(user_profile=user_profile, **validated_data)`. -/
def mkOfferRow (pk profileId : Nat) (title description : String) : Offer :=
  { id := pk, user_profile := profileId, title := title,
    description := description }

/-- `OfferCreateSerializer.create` (serializers.py lines 149-165): resolve
the requester's profile (or raise `ValidationError`), create the parent
offer row, then create each nested detail in turn.  Returns the database
state at the end or at the raise, together with the outcome (the created
offer's id on success). -/
def offerCreate (db : DB) (user_profile : Option UserProfile)
    (v : OfferCreateData) : DB × Except ApiErr Nat :=
  match user_profile with
  | none => (db, .error .validationError)
  | some p =>
    let offerId := db.next_id
    let db1 : DB :=
      { db with
        offers := db.offers ++ [mkOfferRow offerId p.id v.title v.description]
        next_id := db.next_id + 1 }
    createDetailsLoop db1 offerId v.details

/-- `OfferBaseSerializer.get_min_price` (lines 93-98) without the
annotation shortcut: `min(prices) if prices else None` over the offer's
detail prices. -/
def get_min_price (db : DB) (offerId : Nat) : Option ℚ :=
  match (detailsOf db offerId).map (fun d => d.price) with
  | [] => none
  | q :: qs => some (qs.foldl min q)

/-- Python's `{d.offer_type: d for d in instance.details.all()}` read back
at a key: on duplicate keys the dict keeps the last binding, so the lookup
returns the last matching row. -/
def dictLookup (rows : List OfferDetail) (t : String) : Option OfferDetail :=
  rows.reverse.find? (fun r => r.offer_type = t)

/-- Overwrite the row with primary key `pk` (a `detail.save()` after
`setattr`-ing the validated payload). -/
def editOfferDetail (db : DB) (pk : Nat) (d : OfferDetailData) : DB :=
  { db with
    offer_details :=
      db.offer_details.map (fun r => if r.id = pk then applyDetailData r d else r) }

/-- The detail-merge loop of `OfferCreateSerializer.update`
(lines 177-189): `existing` is the dict of the offer's details snapshotted
before the loop; a submitted item whose tier is a key of the dict updates
that row in place, any other item is inserted (an `IntegrityError`
becoming a `ValidationError`, with earlier writes kept). -/
def updateDetailsLoop (db : DB) (offerId : Nat) (existing : List OfferDetail) :
    List OfferDetailData → DB × Except ApiErr Unit
  | [] => (db, .ok ())
  | d :: rest =>
    match dictLookup existing d.offer_type with
    | some row => updateDetailsLoop (editOfferDetail db row.id d) offerId existing rest
    | none =>
      match insertOfferDetail db offerId d with
      | .error _ => (db, .error .validationError)
      | .ok db1 => updateDetailsLoop db1 offerId existing rest

/-- Validated payload of `OfferCreateSerializer` for a (partial) update:
each writable field optional, `details` optional. -/
structure OfferUpdateData where
  title : Option String
  description : Option String
  details : Option (List OfferDetailData)
  deriving Repr, DecidableEq

/-- Apply the scalar part of `OfferCreateSerializer.update` (lines 170-172)
to one offer row. -/
def applyOfferAttrs (o : Offer) (v : OfferUpdateData) : Offer :=
  { o with
    title := v.title.getD o.title
    description := v.description.getD o.description }

/-- `OfferCreateSerializer.update` (lines 167-191): set the submitted
scalar attrs on the instance and save it, then, when a `details` list was
submitted, merge it into the offer's existing details by tier. -/
def offerUpdate (db : DB) (offerId : Nat) (v : OfferUpdateData) :
    DB × Except ApiErr Unit :=
  let db1 : DB :=
    { db with
      offers := db.offers.map
        (fun o => if o.id = offerId then applyOfferAttrs o v else o) }
  match v.details with
  | none => (db1, .ok ())
  | some details_data =>
    updateDetailsLoop db1 offerId (detailsOf db1 offerId) details_data

/-- `OrderSerializer.create` (lines 224-237): resolve the requester's
profile (else `ValidationError`), resolve the referenced `OfferDetail`
(else `NotFound`), then create the order row referencing it (status takes
the model default `in_progress`, per the spec's status set). -/
def orderCreate (db : DB) (user_profile : Option UserProfile)
    (offer_detail_id : Nat) : DB × Except ApiErr Order :=
  match user_profile with
  | none => (db, .error .validationError)
  | some p =>
    match findDetail db offer_detail_id with
    | none => (db, .error .notFound)
    | some d =>
      let o : Order :=
        { id := db.next_id, customer_user := p.id, offer_detail := d.id,
          status := "in_progress" }
      ({ db with orders := db.orders ++ [o], next_id := db.next_id + 1 }, .ok o)

/-- `OrderSerializer.get_price` (line 245): `obj.offer_detail.price`. -/
def order_get_price (db : DB) (o : Order) : Option ℚ :=
  (findDetail db o.offer_detail).map (fun d => d.price)

/-- `OrderSerializer.get_title` (line 242): `obj.offer_detail.title`. -/
def order_get_title (db : DB) (o : Order) : Option String :=
  (findDetail db o.offer_detail).map (fun d => d.title)

/-- `OrderSerializer.get_revisions` (line 239). -/
def order_get_revisions (db : DB) (o : Order) : Option Int :=
  (findDetail db o.offer_detail).map (fun d => d.revisions)

/-- `OrderSerializer.get_delivery_time_in_days` (line 248). -/
def order_get_delivery_time_in_days (db : DB) (o : Order) : Option Nat :=
  (findDetail db o.offer_detail).map (fun d => d.delivery_time_in_days)

/-- `OrderSerializer.get_features` (line 251). -/
def order_get_features (db : DB) (o : Order) : Option (List String) :=
  (findDetail db o.offer_detail).map (fun d => d.features)

/-- `OrderSerializer.get_offer_type` (line 254). -/
def order_get_offer_type (db : DB) (o : Order) : Option String :=
  (findDetail db o.offer_detail).map (fun d => d.offer_type)

/-- The owning business profile reached through the order's reference
chain `offer_detail__offer__user_profile` (views.py line 132). -/
def orderOfferOwner (db : DB) (o : Order) : Option Nat :=
  (findDetail db o.offer_detail).bind
    (fun d => (findOffer db d.offer).map (fun off => off.user_profile))

/-- `OrderListCreateView.get_queryset` (views.py lines 124-133): a missing
profile raises `PermissionDenied`; a customer profile gets the orders
filtered on `customer_user`; a business profile gets the orders filtered on
`offer_detail__offer__user_profile`; any other role gets the empty set. -/
def orderListQueryset (db : DB) (user_profile : Option UserProfile) :
    Except ApiErr (List Order) :=
  match user_profile with
  | none => .error .permissionDenied
  | some p =>
    if p.type = "customer" then
      .ok (db.orders.filter (fun o => o.customer_user = p.id))
    else if p.type = "business" then
      .ok (db.orders.filter (fun o => orderOfferOwner db o = some p.id))
    else
      .ok []

/-- `ReviewSerializer.create` (lines 277-293): require an authenticated
requester (`PermissionDenied`), require a profile (`PermissionDenied`),
then reject with `ValidationError` when a review by this reviewer for this
business already exists (`Review.objects.filter(...).exists()`), else
insert the review row. -/
def reviewCreate (db : DB) (authenticated : Bool)
    (user_profile : Option UserProfile) (business_user : Nat) (rating : Int)
    (description : String) : DB × Except ApiErr Review :=
  if authenticated = false then (db, .error .permissionDenied)
  else
    match user_profile with
    | none => (db, .error .permissionDenied)
    | some p =>
      if db.reviews.any
          (fun r => r.business_user = business_user ∧ r.reviewer = p.id) then
        (db, .error .validationError)
      else
        let r : Review :=
          { id := db.next_id, business_user := business_user,
            reviewer := p.id, rating := rating, description := description }
        ({ db with reviews := db.reviews ++ [r], next_id := db.next_id + 1 },
         .ok r)

/-- Round to the nearest integer with ties to the even integer, the tie
rule of Python's built-in `round`. -/
def roundHalfEven (q : ℚ) : ℤ :=
  let f : ℤ := ⌊q⌋
  let r : ℚ := q - (f : ℚ)
  if r < 1/2 then f
  else if (1:ℚ)/2 < r then f + 1
  else if f % 2 = 0 then f else f + 1

/-- Python's `round(x, 1)`: round to one decimal place. -/
def pyRound1 (q : ℚ) : ℚ :=
  ((roundHalfEven (q * 10) : ℤ) : ℚ) / 10

/-- Mean of all review ratings (`Review.objects.aggregate(Avg("rating"))`);
`none` when no review row exists, exactly as the SQL `AVG` of no rows. -/
def avgRating (db : DB) : Option ℚ :=
  match db.reviews with
  | [] => none
  | _ => some (((db.reviews.map (fun r => (r.rating : ℚ))).sum) /
               (db.reviews.length : ℚ))

/-- Response body of `BaseInfoView.get`. -/
structure BaseInfo where
  review_count : Nat
  average_rating : ℚ
  business_profile_count : Nat
  offer_count : Nat
  deriving Repr, DecidableEq

/-- `BaseInfoView.get` (views.py lines 202-217):
`average_rating = round(average, 1) if average else 0.0` — the Python
truthiness test sends both a missing aggregate (`None`) and a mean of
exactly `0.0` to the `0.0` branch — plus the three counts. -/
def base_info_get (db : DB) : BaseInfo :=
  let average_rating : ℚ :=
    match avgRating db with
    | none => 0
    | some a => if a = 0 then 0 else pyRound1 a
  { review_count := db.reviews.length
    average_rating := average_rating
    business_profile_count :=
      (db.profiles.filter (fun p => p.type = "business")).length
    offer_count := db.offers.length }

/-- `IsAuthenticatedForReadAndBusinessOwnerForWrite.has_permission`
(permissions.py lines 124-125): `bool(request.user and
request.user.is_authenticated)`, for every HTTP method alike. -/
def hasPermissionAuthReadBusinessWrite (authenticated : Bool) : Bool :=
  authenticated

/-- One entry of the light detail shape produced by
`OfferDetailLightSerializer` (`fields = ["id", "url"]`); the hyperlink is
modelled by the detail id it references. -/
structure LightDetail where
  id : Nat
  url : Nat
  deriving Repr, DecidableEq

/-- Light offer representation used by `OfferListSerializer` for the
retrieve endpoint: each nested detail reduced to \x7bid, url\x7d. -/
def lightShape (db : DB) (o : Offer) : List LightDetail :=
  (detailsOf db o.id).map (fun d => { id := d.id, url := d.id })

/-- GET on `OfferDetailView` (views.py lines 75-86): the view-level
permission check of `IsAuthenticatedForReadAndBusinessOwnerForWrite` runs
first and an anonymous request is rejected as unauthenticated; an
authenticated request resolves the offer (404 when absent) and serializes
it with the light shape. -/
def offerRetrieve (db : DB) (authenticated : Bool) (pk : Nat) :
    Except ApiErr (List LightDetail) :=
  if hasPermissionAuthReadBusinessWrite authenticated = false then
    .error .unauthenticated
  else
    match findOffer db pk with
    | none => .error .notFound
    | some o => .ok (lightShape db o)

/-- Request body of an order create as the client may submit it:
`offer_detail_id` plus an optional `customer_user` value.  Both names are
in `OrderSerializer.Meta.fields`, so `StrictModelSerializer` accepts the
body either way; `customer_user` is in `read_only_fields` and is dropped
from the validated data. -/
structure OrderBody where
  offer_detail_id : Nat
  customer_user : Option Nat
  deriving Repr, DecidableEq

/-- Deserialization of `OrderBody` by `OrderSerializer`: the validated
data keeps only the writable `offer_detail_id`; the read-only
`customer_user` is discarded. -/
def orderValidated (b : OrderBody) : Nat :=
  b.offer_detail_id

/-- POST on `OrderListCreateView` end to end: deserialize the body, then
run `OrderSerializer.create` with the requester's profile. -/
def orderCreateFromBody (db : DB) (user_profile : Option UserProfile)
    (b : OrderBody) : DB × Except ApiErr Order :=
  orderCreate db user_profile (orderValidated b)

/-- Database sanity invariant maintained by the embedding: every primary
key and every foreign key is below `next_id`, primary keys are distinct
per table, and the tier-uniqueness constraint of `OfferDetail` holds. -/
def WF (db : DB) : Prop :=
  (∀ o ∈ db.offers, o.id < db.next_id) ∧
  (∀ d ∈ db.offer_details, d.id < db.next_id ∧ d.offer < db.next_id) ∧
  (db.offer_details.map (fun d => d.id)).Nodup ∧
  List.Pairwise
    (fun a b => ¬(a.offer = b.offer ∧ a.offer_type = b.offer_type))
    db.offer_details

instance (db : DB) : Decidable (WF db) := by
  unfold WF; infer_instance

/-! Concrete fixture mirroring the repository's test fixture
(`SalesApiTests.setUpTestData`): one business profile, one customer
profile, one offer with a basic detail, one order on it, one review. -/

/-- Fixture: business profile. -/
def exProfileBiz : UserProfile := { id := 0, type := "business" }

/-- Fixture: customer profile. -/
def exProfileCust : UserProfile := { id := 1, type := "customer" }

/-- Fixture: the business's offer. -/
def exOffer : Offer :=
  { id := 2, user_profile := 0, title := "Logo Design",
    description := "I design a logo" }

/-- Fixture: the offer's basic detail. -/
def exDetailBasic : OfferDetail :=
  { id := 3, offer := 2, title := "Basic", revisions := 1,
    delivery_time_in_days := 3, price := 50, features := ["a", "b"],
    offer_type := "basic" }

/-- Fixture: the customer's order on the basic detail. -/
def exOrder : Order :=
  { id := 4, customer_user := 1, offer_detail := 3, status := "in_progress" }

/-- Fixture: the customer's review of the business. -/
def exReview : Review :=
  { id := 5, business_user := 0, reviewer := 1, rating := 5,
    description := "Great!" }

/-- Fixture database. -/
def exDB : DB :=
  { profiles := [exProfileBiz, exProfileCust]
    offers := [exOffer]
    offer_details := [exDetailBasic]
    orders := [exOrder]
    reviews := [exReview]
    next_id := 6 }

/-- Fixture: valid nested detail payload with the basic tier. -/
def exDataBasic : OfferDetailData :=
  { title := "Basic", revisions := 1, delivery_time_in_days := 3,
    price := 10, features := ["x"], offer_type := "basic" }

/-- Fixture: a second nested detail payload with the same basic tier. -/
def exDataBasic2 : OfferDetailData :=
  { title := "Basic again", revisions := 2, delivery_time_in_days := 2,
    price := 20, features := ["y"], offer_type := "basic" }

/-- Fixture: nested detail payload with the premium tier. -/
def exDataPremium : OfferDetailData :=
  { title := "Premium", revisions := 5, delivery_time_in_days := 1,
    price := 200, features := ["x", "y", "z"], offer_type := "premium" }

/-- Fixture: partial update payload submitting a changed basic detail and
a new premium detail. -/
def exUpdateData : OfferUpdateData :=
  { title := some "Updated Title", description := none,
    details := some [exDataBasic2, exDataPremium] }

/-- The order row `OrderSerializer.create` builds for requester profile
`custId` and a resolved detail `detId`. -/
def mkOrderRow (pk custId detId : Nat) : Order :=
  { id := pk, customer_user := custId, offer_detail := detId,
    status := "in_progress" }

/-! Helper lemmas. -/

/-- Applying a validated payload never changes a row's primary key. -/
lemma applyDetailData_id (r : OfferDetail) (d : OfferDetailData) :
    (applyDetailData r d).id = r.id := rfl

/-- Looking a row up after an in-place edit is looking it up before and
editing the result. -/
lemma findDetail_editOfferDetail (db : DB) (pk i : Nat) (nd : OfferDetailData) :
    findDetail (editOfferDetail db pk nd) i =
      (findDetail db i).map
        (fun r => if r.id = pk then applyDetailData r nd else r) := by
  unfold findDetail editOfferDetail
  rw [List.find?_map]
  have hp : ((fun d => decide (d.id = i)) ∘
        fun r => if r.id = pk then applyDetailData r nd else r) =
      (fun d : OfferDetail => decide (d.id = i)) := by
    funext r
    by_cases h : r.id = pk <;> simp [Function.comp, h, applyDetailData]
  rw [hp]

/-- A found row satisfies the lookup predicate. -/
lemma findDetail_id {db : DB} {i : Nat} {r : OfferDetail}
    (h : findDetail db i = some r) : r.id = i := by
  have := List.find?_some h
  simpa using this

/-- Claim C2: the spec, the view docstring ("Public read (GET)") and the
repository's own test `test_offer_detail_public_read` all state that an
anonymous GET on `/offers/\x7bid\x7d` for an existing offer succeeds with
the light detail shape, but
`IsAuthenticatedForReadAndBusinessOwnerForWrite.has_permission` returns
`False` for every anonymous request, so the code rejects it as
unauthenticated: evaluated at the fixture, the offer exists and the
anonymous retrieve is refused. -/
theorem offer_retrieve_anonymous_rejected_despite_existing_offer :
    findOffer exDB 2 = some exOffer ∧
    offerRetrieve exDB false 2 = .error .unauthenticated ∧
    offerRetrieve exDB true 2 = .ok [{ id := 3, url := 3 }] := by
  refine ⟨rfl, rfl, rfl⟩

/-- Claim C3: for an authenticated requester with a profile, order
creation fails with not-found exactly when the submitted
`offer_detail_id` resolves to no `OfferDetail` row; when it resolves, the
order referencing that detail is created and persisted. -/
theorem order_create_not_found_iff_unresolved (db : DB) (p : UserProfile)
    (oid : Nat) :
    ((orderCreate db (some p) oid).snd = .error .notFound ↔
      findDetail db oid = none) ∧
    (∀ d, findDetail db oid = some d →
      (orderCreate db (some p) oid).snd = .ok (mkOrderRow db.next_id p.id oid) ∧
      mkOrderRow db.next_id p.id oid ∈ (orderCreate db (some p) oid).fst.orders) := by
  constructor
  · unfold orderCreate
    cases h : findDetail db oid <;> simp [h]
  · intro d hd
    have hid : d.id = oid := findDetail_id hd
    unfold orderCreate
    simp [hd, mkOrderRow, hid]

/-- Claim C3 witness: at the fixture, id 3 resolves to the basic detail
and the created order references it. -/
theorem order_create_not_found_iff_unresolved_witness :
    (orderCreate exDB (some exProfileCust) 3).snd =
      .ok (mkOrderRow 6 1 3) ∧
    mkOrderRow 6 1 3 ∈ (orderCreate exDB (some exProfileCust) 3).fst.orders :=
  (order_create_not_found_iff_unresolved exDB exProfileCust 3).2
    exDetailBasic (by rfl)

/-- Claim C4: every read of an order's price, tier, delivery, revision,
title and feature fields dereferences the current state of the linked
`OfferDetail`; editing that detail changes every subsequent read of the
order accordingly (no snapshot is stored on the order row). -/
theorem order_read_dereferences_current_detail (db : DB) (o : Order)
    (d : OfferDetail) (nd : OfferDetailData)
    (h : findDetail db o.offer_detail = some d) :
    order_get_price db o = some d.price ∧
    order_get_offer_type db o = some d.offer_type ∧
    order_get_delivery_time_in_days db o = some d.delivery_time_in_days ∧
    order_get_revisions db o = some d.revisions ∧
    order_get_title db o = some d.title ∧
    order_get_features db o = some d.features ∧
    order_get_price (editOfferDetail db o.offer_detail nd) o = some nd.price ∧
    order_get_offer_type (editOfferDetail db o.offer_detail nd) o = some nd.offer_type ∧
    order_get_delivery_time_in_days (editOfferDetail db o.offer_detail nd) o = some nd.delivery_time_in_days ∧
    order_get_revisions (editOfferDetail db o.offer_detail nd) o = some nd.revisions ∧
    order_get_title (editOfferDetail db o.offer_detail nd) o = some nd.title ∧
    order_get_features (editOfferDetail db o.offer_detail nd) o = some nd.features := by
  have hid : d.id = o.offer_detail := findDetail_id h
  have hedit : findDetail (editOfferDetail db o.offer_detail nd) o.offer_detail
      = some (applyDetailData d nd) := by
    rw [findDetail_editOfferDetail, h]
    simp [hid]
  unfold order_get_price order_get_offer_type order_get_delivery_time_in_days
    order_get_revisions order_get_title order_get_features
  rw [h, hedit]
  simp [applyDetailData]

/-- Claim C4 witness: at the fixture order, the reads give the basic
detail's fields, and after an edit to the premium payload they give the
edited fields. -/
theorem order_read_dereferences_current_detail_witness :
    order_get_price exDB exOrder = some 50 ∧
    order_get_offer_type exDB exOrder = some "basic" ∧
    order_get_delivery_time_in_days exDB exOrder = some 3 ∧
    order_get_revisions exDB exOrder = some 1 ∧
    order_get_title exDB exOrder = some "Basic" ∧
    order_get_features exDB exOrder = some ["a", "b"] ∧
    order_get_price (editOfferDetail exDB exOrder.offer_detail exDataPremium) exOrder = some 200 ∧
    order_get_offer_type (editOfferDetail exDB exOrder.offer_detail exDataPremium) exOrder = some "premium" ∧
    order_get_delivery_time_in_days (editOfferDetail exDB exOrder.offer_detail exDataPremium) exOrder = some 1 ∧
    order_get_revisions (editOfferDetail exDB exOrder.offer_detail exDataPremium) exOrder = some 5 ∧
    order_get_title (editOfferDetail exDB exOrder.offer_detail exDataPremium) exOrder = some "Premium" ∧
    order_get_features (editOfferDetail exDB exOrder.offer_detail exDataPremium) exOrder = some ["x", "y", "z"] :=
  order_read_dereferences_current_detail exDB exOrder exDetailBasic
    exDataPremium (by rfl)

/-- Claim C5: listing orders without a profile is rejected with
access-denied, never answered with an empty list; a customer's list holds
exactly the orders where they are the customer, a business's list exactly
the orders whose referenced offer it owns. -/
theorem order_list_scoped_by_role (db : DB) (p : UserProfile)
    (ls1 ls2 : List Order) (o : Order) :
    orderListQueryset db none = .error .permissionDenied ∧
    (p.type = "customer" → orderListQueryset db (some p) = .ok ls1 →
      (o ∈ ls1 ↔ o ∈ db.orders ∧ o.customer_user = p.id)) ∧
    (p.type = "business" → orderListQueryset db (some p) = .ok ls2 →
      (o ∈ ls2 ↔ o ∈ db.orders ∧ orderOfferOwner db o = some p.id)) := by
  refine ⟨rfl, ?_, ?_⟩
  · intro ht h
    unfold orderListQueryset at h
    simp [ht] at h
    subst h
    simp [List.mem_filter]
  · intro ht h
    unfold orderListQueryset at h
    simp [ht] at h
    subst h
    simp [List.mem_filter]

/-- Claim C5 witness: at the fixture, the profile-less list call is
access-denied, and the fixture customer's list is exactly the fixture
order. -/
theorem order_list_scoped_by_role_witness :
    orderListQueryset exDB none = .error .permissionDenied ∧
    (exOrder ∈ [exOrder] ↔ exOrder ∈ exDB.orders ∧
      exOrder.customer_user = exProfileCust.id) := by
  refine ⟨(order_list_scoped_by_role exDB exProfileCust [exOrder] [] exOrder).1, ?_⟩
  exact (order_list_scoped_by_role exDB exProfileCust [exOrder] [exOrder] exOrder).2.1
    (by rfl) (by rfl)

/-- Claim C7: a second review by the same reviewer for the same business
profile fails with a validation error and leaves the database — in
particular the first review — unmodified; and the at-most-one-review-per
(reviewer, business) invariant is preserved by every create. -/
theorem review_create_unique_per_pair (db : DB) (p : UserProfile) (b : Nat)
    (rating : Int) (desc : String) :
    (db.reviews.any (fun r => r.business_user = b ∧ r.reviewer = p.id) = true →
      reviewCreate db true (some p) b rating desc =
        (db, .error .validationError)) ∧
    (List.Pairwise
        (fun r1 r2 => ¬(r1.business_user = r2.business_user ∧
          r1.reviewer = r2.reviewer)) db.reviews →
      List.Pairwise
        (fun r1 r2 => ¬(r1.business_user = r2.business_user ∧
          r1.reviewer = r2.reviewer))
        (reviewCreate db true (some p) b rating desc).fst.reviews) := by
  constructor
  · intro h
    have h2 : ∃ r ∈ db.reviews, r.business_user = b ∧ r.reviewer = p.id := by
      simpa using h
    simp [reviewCreate, h2]
  · intro hpw
    by_cases h2 : ∃ r ∈ db.reviews, r.business_user = b ∧ r.reviewer = p.id
    · simp only [reviewCreate, if_neg (show ¬(true = false) by simp)]
      rw [if_pos (by simpa using h2)]
      exact hpw
    · simp only [reviewCreate, if_neg (show ¬(true = false) by simp)]
      rw [if_neg (by simpa using h2)]
      refine List.pairwise_append.mpr ⟨hpw, List.pairwise_singleton _ _, ?_⟩
      intro r1 hr1 r2 hr2
      have hr2e := List.mem_singleton.mp hr2
      subst hr2e
      push_neg at h2
      have hne := h2 r1 hr1
      simpa using hne

/-- Claim C7 witness: at the fixture, the customer already reviewed the
business, so a second attempt fails validation with the store unchanged,
and the pair-uniqueness invariant is preserved. -/
theorem review_create_unique_per_pair_witness :
    reviewCreate exDB true (some exProfileCust) 0 4 "dup" =
      (exDB, .error .validationError) ∧
    List.Pairwise
      (fun r1 r2 => ¬(r1.business_user = r2.business_user ∧
        r1.reviewer = r2.reviewer))
      (reviewCreate exDB true (some exProfileCust) 0 4 "dup").fst.reviews :=
  ⟨(review_create_unique_per_pair exDB exProfileCust 0 4 "dup").1 (by decide),
   (review_create_unique_per_pair exDB exProfileCust 0 4 "dup").2 (by decide)⟩

/-- Claim C8: `/base-info` returns the review count, the count of
business-typed profiles, the offer count, and as `average_rating` the
mean rating rounded to one decimal place — exactly `0.0`, not null or an
error, when no review exists — and the returned value always has at most
one decimal place. -/
theorem base_info_aggregates (db : DB) :
    (base_info_get db).review_count = db.reviews.length ∧
    (base_info_get db).business_profile_count =
      (db.profiles.filter (fun p => p.type = "business")).length ∧
    (base_info_get db).offer_count = db.offers.length ∧
    (db.reviews = [] → (base_info_get db).average_rating = 0) ∧
    (db.reviews ≠ [] → (base_info_get db).average_rating =
      pyRound1 (((db.reviews.map (fun r => (r.rating : ℚ))).sum) /
        (db.reviews.length : ℚ))) ∧
    ((base_info_get db).average_rating * 10).den = 1 := by
  have hz : pyRound1 0 = 0 := by
    unfold pyRound1 roundHalfEven
    norm_num
  have havg : ∀ q : ℚ, ((pyRound1 q) * 10).den = 1 := by
    intro q
    unfold pyRound1
    rw [div_mul_cancel₀ _ (by norm_num : (10 : ℚ) ≠ 0)]
    exact Rat.den_intCast _
  refine ⟨rfl, rfl, rfl, ?_, ?_, ?_⟩
  · intro h
    unfold base_info_get avgRating
    simp [h]
  · intro h
    unfold base_info_get avgRating
    cases hrev : db.reviews with
    | nil => exact absurd hrev h
    | cons r rs =>
      simp only [← hrev]
      by_cases h0 : ((db.reviews.map (fun r => (r.rating : ℚ))).sum) /
          (db.reviews.length : ℚ) = 0
      · simp only [hrev]
        rw [← hrev, if_pos h0, h0, hz]
      · simp only [hrev]
        rw [← hrev, if_neg h0]
  · unfold base_info_get avgRating
    cases hrev : db.reviews with
    | nil => simp
    | cons r rs =>
      simp only
      by_cases h0 : ((db.reviews.map (fun r => (r.rating : ℚ))).sum) /
          (db.reviews.length : ℚ) = 0
      · rw [hrev] at h0
        rw [if_pos h0]
        simp
      · rw [hrev] at h0
        rw [if_neg h0]
        exact havg _

/-- Claim C8 witness: the fixture has one 5-star review, two profiles
(one business) and one offer, so the body is (1, 5.0, 1, 1); an empty
store gives average_rating exactly 0. -/
theorem base_info_aggregates_witness :
    (base_info_get exDB).review_count = 1 ∧
    (base_info_get exDB).business_profile_count = 1 ∧
    (base_info_get exDB).offer_count = 1 ∧
    (base_info_get exDB).average_rating =
      pyRound1 (((exDB.reviews.map (fun r => (r.rating : ℚ))).sum) /
        (exDB.reviews.length : ℚ)) ∧
    ((base_info_get exDB).average_rating * 10).den = 1 := by
  have h := base_info_aggregates exDB
  exact ⟨h.1, h.2.1, h.2.2.1, h.2.2.2.2.1 (by decide), h.2.2.2.2.2⟩

/-- Claim C10: the created order's customer is always the requester's
profile — a submitted `customer_user` body value is dropped by the
read-only field handling, so two bodies differing only there give
identical results, and any created order carries the requester's id. -/
theorem order_create_ignores_submitted_customer (db : DB) (p : UserProfile)
    (b1 b2 : OrderBody) (o : Order) :
    (b1.offer_detail_id = b2.offer_detail_id →
      orderCreateFromBody db (some p) b1 = orderCreateFromBody db (some p) b2) ∧
    ((orderCreateFromBody db (some p) b1).snd = .ok o →
      o.customer_user = p.id) := by
  constructor
  · intro h
    unfold orderCreateFromBody orderValidated
    rw [h]
  · intro h
    unfold orderCreateFromBody orderValidated orderCreate at h
    cases hd : findDetail db b1.offer_detail_id with
    | none => rw [hd] at h; exact absurd h (by simp)
    | some d =>
      rw [hd] at h
      simp at h
      rw [← h]

/-- Claim C10 witness: two fixture bodies for detail 3, one smuggling
`customer_user := 99`, one without, produce the same result, and the
created order belongs to the requesting customer profile. -/
theorem order_create_ignores_submitted_customer_witness :
    orderCreateFromBody exDB (some exProfileCust)
        { offer_detail_id := 3, customer_user := some 99 } =
      orderCreateFromBody exDB (some exProfileCust)
        { offer_detail_id := 3, customer_user := none } ∧
    (mkOrderRow 6 1 3).customer_user = exProfileCust.id :=
  ⟨(order_create_ignores_submitted_customer exDB exProfileCust
      { offer_detail_id := 3, customer_user := some 99 }
      { offer_detail_id := 3, customer_user := none } (mkOrderRow 6 1 3)).1 rfl,
   (order_create_ignores_submitted_customer exDB exProfileCust
      { offer_detail_id := 3, customer_user := some 99 }
      { offer_detail_id := 3, customer_user := none } (mkOrderRow 6 1 3)).2
      (by rfl)⟩

/-- A successful detail insert only appends to the detail table. -/
lemma insertOfferDetail_ok {db db1 : DB} {oid : Nat} {d : OfferDetailData}
    (h : insertOfferDetail db oid d = .ok db1) :
    db1 = { db with
            offer_details :=
              db.offer_details ++ [mkDetailRow db.next_id oid d]
            next_id := db.next_id + 1 } ∧
    ¬ ∃ r ∈ db.offer_details, r.offer = oid ∧ r.offer_type = d.offer_type := by
  unfold insertOfferDetail at h
  split at h
  · cases h
  · next hc =>
    cases h
    exact ⟨rfl, by simpa using hc⟩

/-- A failing detail insert means a row of the same offer and tier
already exists. -/
lemma insertOfferDetail_error {db : DB} {oid : Nat} {d : OfferDetailData}
    {e : Unit} (h : insertOfferDetail db oid d = .error e) :
    ∃ r ∈ db.offer_details, r.offer = oid ∧ r.offer_type = d.offer_type := by
  unfold insertOfferDetail at h
  split at h
  · next hc => simpa using hc
  · cases h

/-- The create-details loop never touches the offer table. -/
lemma createDetailsLoop_offers (ds : List OfferDetailData) :
    ∀ db oid, (createDetailsLoop db oid ds).fst.offers = db.offers := by
  induction ds with
  | nil => intro db oid; rfl
  | cons d rest ih =>
    intro db oid
    unfold createDetailsLoop
    cases h : insertOfferDetail db oid d with
    | error e => rfl
    | ok db1 =>
      have he := (insertOfferDetail_ok h).1
      simp only []
      rw [ih db1 oid, he]

/-- If the submitted tiers repeat, or some submitted tier already has a
row of this offer, the create-details loop raises a validation error. -/
lemma createDetailsLoop_error_of_dup (ds : List OfferDetailData) :
    ∀ db oid,
      (¬ (ds.map (fun d => d.offer_type)).Nodup ∨
        ∃ d ∈ ds, ∃ r ∈ db.offer_details,
          r.offer = oid ∧ r.offer_type = d.offer_type) →
      (createDetailsLoop db oid ds).snd = .error .validationError := by
  induction ds with
  | nil =>
    intro db oid h
    rcases h with h | h
    · exact absurd List.nodup_nil h
    · simp at h
  | cons d rest ih =>
    intro db oid h
    unfold createDetailsLoop
    cases hins : insertOfferDetail db oid d with
    | error e => rfl
    | ok db1 =>
      obtain ⟨hdb1, hnc⟩ := insertOfferDetail_ok hins
      simp only []
      apply ih db1 oid
      rcases h with h | h
      · by_cases hmem : d.offer_type ∈ rest.map (fun x => x.offer_type)
        · obtain ⟨d2, hd2, ht⟩ := List.mem_map.mp hmem
          refine Or.inr ⟨d2, hd2, mkDetailRow db.next_id oid d, ?_, rfl, ht.symm⟩
          rw [hdb1]
          simp
        · refine Or.inl ?_
          intro hnd
          exact h (List.nodup_cons.mpr ⟨hmem, hnd⟩)
      · obtain ⟨d2, hd2, r, hr, hro, hrt⟩ := h
        rcases List.mem_cons.mp hd2 with rfl | hd2r
        · exact absurd ⟨r, hr, hro, hrt⟩ hnc
        · refine Or.inr ⟨d2, hd2r, r, ?_, hro, hrt⟩
          rw [hdb1]
          simp [hr]

/-- Claim C1 counterexample: at the fixture, an offer create by the
business with two basic-tier details fails with a validation error, yet
the parent offer and the first sibling detail are persisted — the create
is not atomic, so the claim's "no part of the request is persisted" is
false. -/
theorem offer_create_duplicate_tier_counterexample :
    (offerCreate exDB (some exProfileBiz)
      { title := "T", description := "D",
        details := [exDataBasic, exDataBasic2] }).snd =
      .error .validationError ∧
    (offerCreate exDB (some exProfileBiz)
      { title := "T", description := "D",
        details := [exDataBasic, exDataBasic2] }).fst.offers =
      exDB.offers ++ [mkOfferRow 6 0 "T" "D"] ∧
    detailsOf (offerCreate exDB (some exProfileBiz)
      { title := "T", description := "D",
        details := [exDataBasic, exDataBasic2] }).fst 6 =
      [mkDetailRow 7 6 exDataBasic] := by
  refine ⟨rfl, rfl, rfl⟩

/-- Claim C1 amended: when the nested details of a create violate
tier-uniqueness the whole create fails with a validation error, but the
write is not atomic — the parent offer row (and every sibling detail
inserted before the offending one) stays persisted. -/
theorem offer_create_duplicate_tier_fails_nonatomically (db : DB)
    (p : UserProfile) (v : OfferCreateData)
    (h : ¬ (v.details.map (fun d => d.offer_type)).Nodup) :
    (offerCreate db (some p) v).snd = .error .validationError ∧
    (offerCreate db (some p) v).fst.offers =
      db.offers ++ [mkOfferRow db.next_id p.id v.title v.description] := by
  unfold offerCreate
  exact ⟨createDetailsLoop_error_of_dup v.details _ db.next_id (Or.inl h),
    createDetailsLoop_offers v.details _ db.next_id⟩

/-- Claim C1 amended witness: the fixture create with two basic-tier
details errors while persisting the parent offer. -/
theorem offer_create_duplicate_tier_fails_nonatomically_witness :
    (offerCreate exDB (some exProfileBiz)
      { title := "W", description := "D",
        details := [exDataBasic2, exDataBasic] }).snd =
      .error .validationError ∧
    (offerCreate exDB (some exProfileBiz)
      { title := "W", description := "D",
        details := [exDataBasic2, exDataBasic] }).fst.offers =
      exDB.offers ++ [mkOfferRow 6 0 "W" "D"] :=
  offer_create_duplicate_tier_fails_nonatomically exDB exProfileBiz
    { title := "W", description := "D",
      details := [exDataBasic2, exDataBasic] } (by decide)

/-- Claim C9 counterexample: at the fixture, a create by the business
whose details list is empty is not rejected: it succeeds and persists an
offer with zero detail rows (whose `min_price` is then null). -/
theorem offer_create_empty_details_counterexample :
    (offerCreate exDB (some exProfileBiz)
      { title := "Empty", description := "E", details := [] }).snd = .ok 6 ∧
    findOffer (offerCreate exDB (some exProfileBiz)
      { title := "Empty", description := "E", details := [] }).fst 6 =
      some (mkOfferRow 6 0 "Empty" "E") ∧
    detailsOf (offerCreate exDB (some exProfileBiz)
      { title := "Empty", description := "E", details := [] }).fst 6 = [] ∧
    get_min_price (offerCreate exDB (some exProfileBiz)
      { title := "Empty", description := "E", details := [] }).fst 6 =
      none := by
  refine ⟨rfl, rfl, rfl, rfl⟩

/-- Claim C9 amended: the serializer requires the `details` field but its
nested list accepts the empty list, so a create carrying zero details
succeeds and an offer without any detail row exists afterwards (its
minimum price serializing as null). -/
theorem offer_create_empty_details_accepted (db : DB) (p : UserProfile)
    (v : OfferCreateData) (h1 : WF db) (h2 : v.details = []) :
    (offerCreate db (some p) v).snd = .ok db.next_id ∧
    detailsOf (offerCreate db (some p) v).fst db.next_id = [] ∧
    get_min_price (offerCreate db (some p) v).fst db.next_id = none := by
  unfold offerCreate
  rw [h2]
  have hdet : (db.offer_details.filter
      (fun d => d.offer = db.next_id)) = [] := by
    rw [List.filter_eq_nil_iff]
    intro a ha
    have := (h1.2.1 a ha).2
    simp
    omega
  refine ⟨rfl, ?_, ?_⟩
  · unfold createDetailsLoop detailsOf
    simpa using hdet
  · unfold createDetailsLoop get_min_price detailsOf
    simp only []
    rw [show ({ db with
        offers := db.offers ++
          [mkOfferRow db.next_id p.id v.title v.description]
        next_id := db.next_id + 1 } : DB).offer_details.filter
        (fun d => d.offer = db.next_id) = [] from by simpa using hdet]
    rfl

/-- Claim C9 amended witness: at the fixture, the empty-details create
succeeds and leaves the new offer with no details and a null
minimum price. -/
theorem offer_create_empty_details_accepted_witness :
    (offerCreate exDB (some exProfileBiz)
      { title := "Empty2", description := "E", details := [] }).snd =
      .ok 6 ∧
    detailsOf (offerCreate exDB (some exProfileBiz)
      { title := "Empty2", description := "E", details := [] }).fst 6 = [] ∧
    get_min_price (offerCreate exDB (some exProfileBiz)
      { title := "Empty2", description := "E", details := [] }).fst 6 =
      none :=
  offer_create_empty_details_accepted exDB exProfileBiz
    { title := "Empty2", description := "E", details := [] }
    (by decide) rfl

/-- A dict hit is a member of the snapshot carrying the looked-up tier. -/
lemma dictLookup_mem {rows : List OfferDetail} {t : String} {e : OfferDetail}
    (h : dictLookup rows t = some e) : e ∈ rows ∧ e.offer_type = t := by
  unfold dictLookup at h
  have hm := List.mem_of_find?_eq_some h
  have hp := List.find?_some h
  exact ⟨List.mem_reverse.mp hm, by simpa using hp⟩

/-- A dict miss means no snapshot row carries the tier. -/
lemma dictLookup_eq_none {rows : List OfferDetail} {t : String} :
    dictLookup rows t = none ↔ ∀ r ∈ rows, r.offer_type ≠ t := by
  unfold dictLookup
  rw [List.find?_eq_none]
  constructor
  · intro h r hr
    simpa using h r (List.mem_reverse.mpr hr)
  · intro h r hr
    simpa using h r (List.mem_reverse.mp hr)

/-- With distinct primary keys, looking up a member row's key finds that
row. -/
lemma find?_id_of_mem_nodup :
    ∀ {l : List OfferDetail}, (l.map (fun x => x.id)).Nodup →
      ∀ {r : OfferDetail}, r ∈ l →
        l.find? (fun x => x.id = r.id) = some r := by
  intro l
  induction l with
  | nil => intro _ r hr; cases hr
  | cons a t ih =>
    intro hn r hr
    rw [List.map_cons] at hn
    have hn2 := List.nodup_cons.mp hn
    by_cases hid : a.id = r.id
    · rcases List.mem_cons.mp hr with rfl | hrt
      · rw [List.find?_cons_of_pos _ (by simp)]
      · exact absurd (hid ▸ List.mem_map_of_mem (fun x => x.id) hrt) hn2.1
    · rcases List.mem_cons.mp hr with rfl | hrt
      · exact absurd rfl hid
      · rw [List.find?_cons_of_neg _ (by simpa using hid)]
        exact ih hn2.2 hrt

/-- In-place edits keep the primary-key column unchanged. -/
lemma editOfferDetail_ids (db : DB) (pk : Nat) (nd : OfferDetailData) :
    (editOfferDetail db pk nd).offer_details.map (fun x => x.id) =
      db.offer_details.map (fun x => x.id) := by
  unfold editOfferDetail
  simp only [List.map_map]
  congr 1
  funext r
  by_cases h : r.id = pk <;> simp [Function.comp, h, applyDetailData]

/-- Mapping a function that either fixes a row or moves it out of (and
not into) the filtered set leaves the filter unchanged. -/
lemma filter_map_untouched {l : List OfferDetail} {f : OfferDetail → OfferDetail}
    {p : OfferDetail → Bool}
    (h : ∀ r ∈ l, f r = r ∨ (p r = false ∧ p (f r) = false)) :
    (l.map f).filter p = l.filter p := by
  induction l with
  | nil => rfl
  | cons a t ih =>
    have iht := ih (fun r hr => h r (List.mem_cons_of_mem _ hr))
    simp only [List.map_cons, List.filter_cons]
    rcases h a (List.mem_cons_self a t) with hfa | ⟨hpa, hpfa⟩
    · rw [hfa]
      cases hp : p a <;> simp [hp, iht]
    · rw [hpa, hpfa]
      simpa using iht

/-- The payload of a freshly inserted row is the submitted payload. -/
lemma dataOfRow_mkDetailRow (pk oid : Nat) (d : OfferDetailData) :
    dataOfRow (mkDetailRow pk oid d) = d := rfl

/-- One unrolled step of the detail-merge loop. -/
lemma updateDetailsLoop_cons (db : DB) (oid : Nat)
    (existing : List OfferDetail) (d : OfferDetailData)
    (rest : List OfferDetailData) :
    updateDetailsLoop db oid existing (d :: rest) =
      match dictLookup existing d.offer_type with
      | some row =>
        updateDetailsLoop (editOfferDetail db row.id d) oid existing rest
      | none =>
        match insertOfferDetail db oid d with
        | Except.error _ => (db, Except.error ApiErr.validationError)
        | Except.ok db1 => updateDetailsLoop db1 oid existing rest := rfl

/-- Behaviour of the detail-merge loop of `OfferCreateSerializer.update`:
with pairwise-distinct submitted tiers, a consistent snapshot and a sane
store, the loop succeeds; every submitted item whose tier is in the
snapshot overwrites that snapshot row in place, every other item ends up
as exactly one fresh row of its tier; rows not referred to by any
submitted tier are left alone (the frame clauses). -/
lemma updateDetailsLoop_spec (existing : List OfferDetail) (oid : Nat)
    (hexids : (existing.map (fun x => x.id)).Nodup) :
    ∀ (ds : List OfferDetailData) (db : DB),
      (ds.map (fun x => x.offer_type)).Nodup →
      (∀ x ∈ ds, ∀ e, dictLookup existing x.offer_type = some e →
        findDetail db e.id = some e) →
      (∀ x ∈ ds, dictLookup existing x.offer_type = none →
        ∀ r ∈ db.offer_details,
          ¬(r.offer = oid ∧ r.offer_type = x.offer_type)) →
      (∀ r ∈ db.offer_details, r.id < db.next_id) →
      (db.offer_details.map (fun x => x.id)).Nodup →
      (updateDetailsLoop db oid existing ds).snd = .ok () ∧
      (∀ x ∈ ds,
        (∀ e, dictLookup existing x.offer_type = some e →
          findDetail (updateDetailsLoop db oid existing ds).fst e.id =
            some (applyDetailData e x)) ∧
        (dictLookup existing x.offer_type = none →
          ((updateDetailsLoop db oid existing ds).fst.offer_details.filter
            (fun r => r.offer = oid ∧ r.offer_type = x.offer_type)).map
              dataOfRow = [x])) ∧
      (∀ i r0, findDetail db i = some r0 →
        (∀ x ∈ ds, ∀ e, dictLookup existing x.offer_type = some e →
          e.id ≠ i) →
        findDetail (updateDetailsLoop db oid existing ds).fst i = some r0) ∧
      (∀ t, (∀ x ∈ ds, x.offer_type ≠ t) →
        (updateDetailsLoop db oid existing ds).fst.offer_details.filter
          (fun r => r.offer = oid ∧ r.offer_type = t) =
          db.offer_details.filter
            (fun r => r.offer = oid ∧ r.offer_type = t)) := by
  intro ds
  induction ds with
  | nil =>
    intro db _ _ _ _ _
    refine ⟨rfl, by simp, ?_, ?_⟩
    · intro i r0 h _
      exact h
    · intro t _
      rfl
  | cons d rest ih =>
    intro db hnd hI1 hI2 hI3 hI4
    rw [List.map_cons] at hnd
    have hndc := List.nodup_cons.mp hnd
    have hndr := hndc.2
    have hd_ne_rest : ∀ x ∈ rest, x.offer_type ≠ d.offer_type := by
      intro x hx heq
      exact hndc.1 (heq ▸ List.mem_map_of_mem (fun x => x.offer_type) hx)
    cases hdl : dictLookup existing d.offer_type with
    | some row =>
      obtain ⟨hrowmem, hrowt⟩ := dictLookup_mem hdl
      have hrowdb : row ∈ db.offer_details :=
        List.mem_of_find?_eq_some (hI1 d (List.mem_cons_self d rest) row hdl)
      have hfindrow : findDetail db row.id = some row :=
        hI1 d (List.mem_cons_self d rest) row hdl
      have hstep : updateDetailsLoop db oid existing (d :: rest) =
          updateDetailsLoop (editOfferDetail db row.id d) oid existing rest := by
        rw [updateDetailsLoop_cons, hdl]
      have hne_rest : ∀ x2 ∈ rest, ∀ e2,
          dictLookup existing x2.offer_type = some e2 → e2.id ≠ row.id := by
        intro x2 hx2 e2 he2 heq
        obtain ⟨he2mem, he2t⟩ := dictLookup_mem he2
        have he2row : e2 = row :=
          List.inj_on_of_nodup_map hexids he2mem hrowmem heq
        exact hd_ne_rest x2 hx2 (by rw [← he2t, he2row, hrowt])
      have hids1 : (editOfferDetail db row.id d).offer_details.map
          (fun x => x.id) = db.offer_details.map (fun x => x.id) :=
        editOfferDetail_ids db row.id d
      have hI1n : ∀ x ∈ rest, ∀ e, dictLookup existing x.offer_type = some e →
          findDetail (editOfferDetail db row.id d) e.id = some e := by
        intro x hx e he
        have hne : e.id ≠ row.id := hne_rest x hx e he
        have hbase := hI1 x (List.mem_cons_of_mem d hx) e he
        rw [findDetail_editOfferDetail, hbase]
        simp [hne]
      have hI2n : ∀ x ∈ rest, dictLookup existing x.offer_type = none →
          ∀ r ∈ (editOfferDetail db row.id d).offer_details,
            ¬(r.offer = oid ∧ r.offer_type = x.offer_type) := by
        intro x hx hxn r hr
        unfold editOfferDetail at hr
        simp only [List.mem_map] at hr
        obtain ⟨r0, hr0, hr0e⟩ := hr
        by_cases hc : r0.id = row.id
        · rw [if_pos hc] at hr0e
          rintro ⟨hro, hrt⟩
          have htr : r.offer_type = d.offer_type := by
            rw [← hr0e]
            rfl
          exact hd_ne_rest x hx (by rw [← hrt, htr])
        · rw [if_neg hc] at hr0e
          exact hI2 x (List.mem_cons_of_mem d hx) hxn r (hr0e ▸ hr0)
      have hI3n : ∀ r ∈ (editOfferDetail db row.id d).offer_details,
          r.id < (editOfferDetail db row.id d).next_id := by
        intro r hr
        unfold editOfferDetail at hr ⊢
        simp only [List.mem_map] at hr
        obtain ⟨r0, hr0, hr0e⟩ := hr
        have hlt := hI3 r0 hr0
        by_cases hc : r0.id = row.id
        · rw [if_pos hc] at hr0e
          rw [← hr0e]
          exact hlt
        · rw [if_neg hc] at hr0e
          rw [← hr0e]
          exact hlt
      have hI4n : ((editOfferDetail db row.id d).offer_details.map
          (fun x => x.id)).Nodup := by
        rw [hids1]
        exact hI4
      obtain ⟨hok, hper, hframe, hfilter⟩ := ih (editOfferDetail db row.id d)
        hndr hI1n hI2n hI3n hI4n
      rw [hstep]
      refine ⟨hok, ?_, ?_, ?_⟩
      · intro x hx
        rcases List.mem_cons.mp hx with rfl | hxr
        · constructor
          · intro e he
            rw [hdl] at he
            cases he
            have hbase1 : findDetail (editOfferDetail db row.id x) row.id =
                some (applyDetailData row x) := by
              rw [findDetail_editOfferDetail, hfindrow]
              simp
            exact hframe row.id (applyDetailData row x) hbase1 hne_rest
          · intro hnone
            rw [hdl] at hnone
            cases hnone
        · exact hper x hxr
      · intro i r0 hfind hne
        have hne_row : row.id ≠ i := hne d (List.mem_cons_self d rest) row hdl
        have hfind1 : findDetail (editOfferDetail db row.id d) i = some r0 := by
          rw [findDetail_editOfferDetail, hfind]
          have hr0i : r0.id = i := findDetail_id hfind
          have hir : i ≠ row.id := fun h => hne_row h.symm
          simp [hr0i, hir]
        exact hframe i r0 hfind1 (fun x hx => hne x (List.mem_cons_of_mem d hx))
      · intro t ht
        have htd : d.offer_type ≠ t := ht d (List.mem_cons_self d rest)
        rw [hfilter t (fun x hx => ht x (List.mem_cons_of_mem d hx))]
        unfold editOfferDetail
        apply filter_map_untouched
        intro r hr
        by_cases hc : r.id = row.id
        · right
          have hreq : r = row := List.inj_on_of_nodup_map hI4 hr hrowdb hc
          constructor
          · simp only [decide_eq_false_iff_not]
            rintro ⟨hro, hrt⟩
            exact htd (by rw [← hrt, hreq, hrowt])
          · rw [if_pos hc]
            simp only [decide_eq_false_iff_not]
            rintro ⟨hro, hrt⟩
            exact htd (by rw [← hrt]; rfl)
        · left
          rw [if_neg hc]
    | none =>
      cases hins : insertOfferDetail db oid d with
      | error e0 =>
        exfalso
        have hnoc := hI2 d (List.mem_cons_self d rest) hdl
        obtain ⟨r, hr, hro, hrt⟩ := insertOfferDetail_error hins
        exact hnoc r hr ⟨hro, hrt⟩
      | ok db1 =>
        obtain ⟨hdb1, hnc⟩ := insertOfferDetail_ok hins
        have hstep : updateDetailsLoop db oid existing (d :: rest) =
            updateDetailsLoop db1 oid existing rest := by
          rw [updateDetailsLoop_cons, hdl, hins]
        have hI1n : ∀ x ∈ rest, ∀ e, dictLookup existing x.offer_type = some e →
            findDetail db1 e.id = some e := by
          intro x hx e he
          have hbase := hI1 x (List.mem_cons_of_mem d hx) e he
          rw [hdb1]
          unfold findDetail at hbase ⊢
          simp only [List.find?_append, hbase]
          rfl
        have hI2n : ∀ x ∈ rest, dictLookup existing x.offer_type = none →
            ∀ r ∈ db1.offer_details,
              ¬(r.offer = oid ∧ r.offer_type = x.offer_type) := by
          intro x hx hxn r hr
          rw [hdb1] at hr
          simp only [List.mem_append, List.mem_singleton] at hr
          rcases hr with hr | rfl
          · exact hI2 x (List.mem_cons_of_mem d hx) hxn r hr
          · rintro ⟨hro, hrt⟩
            exact hd_ne_rest x hx hrt.symm
        have hn1 : db1.next_id = db.next_id + 1 := by
          rw [hdb1]
        have hI3n : ∀ r ∈ db1.offer_details, r.id < db1.next_id := by
          intro r hr
          rw [hdb1] at hr
          rw [hn1]
          simp only [List.mem_append, List.mem_singleton] at hr
          rcases hr with hr | rfl
          · have := hI3 r hr
            omega
          · simp [mkDetailRow]
        have hI4n : (db1.offer_details.map (fun x => x.id)).Nodup := by
          rw [hdb1]
          simp only [List.map_append]
          rw [List.nodup_append]
          refine ⟨hI4, by simp, ?_⟩
          intro a ha hb
          obtain ⟨r0, hr0, hr0e⟩ := List.mem_map.mp ha
          have hlt : a < db.next_id := by
            rw [← hr0e]
            exact hI3 r0 hr0
          simp only [List.map_cons, List.map_nil, List.mem_singleton] at hb
          rw [hb] at hlt
          simp [mkDetailRow] at hlt
        obtain ⟨hok, hper, hframe, hfilter⟩ := ih db1 hndr hI1n hI2n hI3n hI4n
        rw [hstep]
        refine ⟨hok, ?_, ?_, ?_⟩
        · intro x hx
          rcases List.mem_cons.mp hx with rfl | hxr
          · constructor
            · intro e he
              rw [hdl] at he
              cases he
            · intro _
              rw [hfilter x.offer_type hd_ne_rest]
              rw [hdb1]
              simp only [List.filter_append]
              have hold : db.offer_details.filter
                  (fun r => r.offer = oid ∧ r.offer_type = x.offer_type) = [] := by
                rw [List.filter_eq_nil_iff]
                intro a ha
                have := hI2 x (List.mem_cons_self x rest) hdl a ha
                simpa using this
              rw [hold]
              simp [mkDetailRow, dataOfRow]
          · exact hper x hxr
        · intro i r0 hfind hne
          have hfind1 : findDetail db1 i = some r0 := by
            rw [hdb1]
            unfold findDetail at hfind ⊢
            simp only [List.find?_append, hfind]
            rfl
          exact hframe i r0 hfind1 (fun x hx => hne x (List.mem_cons_of_mem d hx))
        · intro t ht
          rw [hfilter t (fun x hx => ht x (List.mem_cons_of_mem d hx))]
          rw [hdb1]
          simp only [List.filter_append]
          have hnew : List.filter
              (fun r => decide (r.offer = oid ∧ r.offer_type = t))
              [mkDetailRow db.next_id oid d] = [] := by
            simp [mkDetailRow, ht d (List.mem_cons_self d rest)]
          rw [hnew]
          simp

/-- Claim C6: on an offer update carrying nested details (with
pairwise-distinct submitted tiers, over a sane store), each submitted
detail whose tier equals the tier of an existing detail of the offer
updates that existing row in place — same primary key, new fields — and
each submitted detail whose tier matches no existing detail creates
exactly one new detail row of that tier carrying the submitted payload;
matching is by tier, never by id. -/
theorem offer_update_merges_details_by_tier (db : DB) (offerId : Nat)
    (v : OfferUpdateData) (submitted : List OfferDetailData)
    (x : OfferDetailData) (hWF : WF db) (hv : v.details = some submitted)
    (hsub : (submitted.map (fun y => y.offer_type)).Nodup)
    (hx : x ∈ submitted) :
    (offerUpdate db offerId v).snd = .ok () ∧
    (match dictLookup (detailsOf db offerId) x.offer_type with
     | some e =>
       findDetail (offerUpdate db offerId v).fst e.id =
         some (applyDetailData e x)
     | none =>
       ((offerUpdate db offerId v).fst.offer_details.filter
         (fun r => r.offer = offerId ∧ r.offer_type = x.offer_type)).map
           dataOfRow = [x]) := by
  obtain ⟨hoff, hdet, hnodup, htier⟩ := hWF
  have hexids : ((detailsOf db offerId).map (fun y => y.id)).Nodup := by
    unfold detailsOf
    exact List.Nodup.sublist
      (List.Sublist.map _ (List.filter_sublist _)) hnodup
  have hI1 : ∀ y ∈ submitted, ∀ e,
      dictLookup (detailsOf db offerId) y.offer_type = some e →
      findDetail db e.id = some e := by
    intro y hy e he
    obtain ⟨hemem, _⟩ := dictLookup_mem he
    have hedb : e ∈ db.offer_details := (List.mem_filter.mp hemem).1
    exact find?_id_of_mem_nodup hnodup hedb
  have hI2 : ∀ y ∈ submitted,
      dictLookup (detailsOf db offerId) y.offer_type = none →
      ∀ r ∈ db.offer_details,
        ¬(r.offer = offerId ∧ r.offer_type = y.offer_type) := by
    rintro y hy hn r hr ⟨hro, hrt⟩
    have hrmem : r ∈ detailsOf db offerId := by
      unfold detailsOf
      rw [List.mem_filter]
      exact ⟨hr, by simpa using hro⟩
    exact (dictLookup_eq_none.mp hn) r hrmem hrt
  have hI3 : ∀ r ∈ db.offer_details, r.id < db.next_id :=
    fun r hr => (hdet r hr).1
  obtain ⟨hok, hper, _, _⟩ := updateDetailsLoop_spec (detailsOf db offerId)
    offerId hexids submitted
    { db with offers := (db.offers.map (fun o =>
        if o.id = offerId then applyOfferAttrs o v else o)) }
    hsub hI1 hI2 hI3 hnodup
  have h2 := hper x hx
  unfold offerUpdate
  rw [hv]
  refine ⟨hok, ?_⟩
  split
  · rename_i e hm
    exact h2.1 e hm
  · rename_i hm
    exact h2.2 hm

/-- Claim C6 witness: updating the fixture offer with a basic-tier
payload and a premium-tier payload succeeds; the basic item overwrites
the existing basic row (id 3) in place. -/
theorem offer_update_merges_details_by_tier_witness :
    (offerUpdate exDB 2 exUpdateData).snd = .ok () ∧
    findDetail (offerUpdate exDB 2 exUpdateData).fst 3 =
      some (applyDetailData exDetailBasic exDataBasic2) :=
  offer_update_merges_details_by_tier exDB 2 exUpdateData
    [exDataBasic2, exDataPremium] exDataBasic2
    (by decide) rfl (by decide) (by decide)

end Coderr
